import Mathlib

/-!
Shallow embedding of the message-processing pipeline of `validator-ejector`
(`src/services/messages-processor/service.ts`), together with the parts of
the configuration it consumes.

External collaborators (blob storage readers, JSON parsing, the keystore
decryptor, the consensus and execution clients, and the BLS / SSZ / domain
computation stack) are modelled as parameters ("deps" records) of the
embedded functions: a call that can throw is represented as an `Option`- or
`Except`-valued field, `none` / `.error` meaning the call raised.  The two
Prometheus counters are threaded explicitly as a `Metrics` record, and
outbound remote calls that the claims count are recorded in an explicit
call trace.
-/

namespace ValidatorEjector

/-- `ExitMessage.message`: the signed voluntary-exit payload
(`{ epoch, validator_index }`, both decimal strings on the wire). -/
structure ExitMessageBody where
  epoch : String
  validator_index : String
deriving DecidableEq, Repr

/-- `ExitMessage`: `{ message: { epoch, validator_index }, signature }`
(service.ts lines 19-25). -/
structure ExitMessage where
  message : ExitMessageBody
  signature : String
deriving DecidableEq, Repr

/-- `EthDoExitMessage`: the wrapped wire form
`{ exit: ExitMessage, fork_version }` (service.ts lines 27-30). -/
structure EthDoExitMessage where
  exit : ExitMessage
  fork_version : String
deriving DecidableEq, Repr

/-- Genesis information fetched once per verification pass
(`consensusApi.genesis()`, fields per `genesisDTO`). -/
structure GenesisInfo where
  genesis_time : String
  genesis_validators_root : String
  genesis_fork_version : String
deriving DecidableEq, Repr

/-- Fork state fetched once per verification pass
(`consensusApi.state()`, fields per `stateDTO`). -/
structure ForkState where
  previous_version : String
  current_version : String
  epoch : String
deriving DecidableEq, Repr

/-- The shape the consensus client returns for one validator, as consumed by
`verify` (`pubKey`, `isExiting`) and by `exit` (`isExiting`, `index`). -/
structure ValidatorInfo where
  pubKey : String
  isExiting : Bool
  index : String
deriving DecidableEq, Repr

/-- The two Prometheus counters of the metrics surface:
`exitMessages` labeled `valid: true | false` and
`exitActions` labeled `result: success | error`. -/
structure Metrics where
  exitMessagesValid : Nat
  exitMessagesInvalid : Nat
  exitActionsSuccess : Nat
  exitActionsError : Nat
deriving DecidableEq, Repr

/-- All-zero counters. -/
def Metrics.init : Metrics := ⟨0, 0, 0, 0⟩

/-- `metrics.exitMessages.inc(\x7b valid: 'true' \x7d)` -/
def Metrics.incMessagesValid (m : Metrics) : Metrics :=
  { m with exitMessagesValid := m.exitMessagesValid + 1 }

/-- `metrics.exitMessages.inc(\x7b valid: 'false' \x7d)` -/
def Metrics.incMessagesInvalid (m : Metrics) : Metrics :=
  { m with exitMessagesInvalid := m.exitMessagesInvalid + 1 }

/-- `metrics.exitActions.inc(\x7b result: 'success' \x7d)` -/
def Metrics.incActionsSuccess (m : Metrics) : Metrics :=
  { m with exitActionsSuccess := m.exitActionsSuccess + 1 }

/-- `metrics.exitActions.inc(\x7b result: 'error' \x7d)` -/
def Metrics.incActionsError (m : Metrics) : Metrics :=
  { m with exitActionsError := m.exitActionsError + 1 }

/-! ### A small JSON value model

`load` manipulates parse results as untyped JSON records before the DTO
turns them into typed messages, so we need a value model for JSON. -/

/-- Untyped JSON values, as produced by `JSON.parse`. -/
inductive Json where
  | null : Json
  | bool (b : Bool) : Json
  | num (n : Int) : Json
  | str (s : String) : Json
  | arr (elems : List Json) : Json
  | obj (fields : List (String × Json)) : Json

/-- Field lookup on a JSON object (`json.key` access); `none` on
non-objects or missing keys. -/
def Json.getField : Json → String → Option Json
  | .obj fields, key => fields.lookup key
  | _, _ => none

/-- The JavaScript test `'key' in json` on a parsed JSON value.  The `in`
operator is defined only on objects: on a plain object it checks key
membership, on an array it checks the array's own property names (the
loader only ever asks for `crypto`, which is never an array property), and
on every primitive (`number`, `string`, `boolean`, `null`) it throws a
`TypeError` — represented here as `.error ()`. -/
def Json.inOp : Json → String → Except Unit Bool
  | .obj fields, key => .ok (fields.lookup key).isSome
  | .arr _, _ => .ok false
  | _, _ => .error ()

/-- Project a JSON string value. -/
def Json.getStr : Json → Option String
  | .str s => some s
  | _ => none

/-! ### DTO layer

`service.ts` imports `exitOrEthDoExitDTO` and `encryptedMessageDTO` from
`./dto.js`, which is not part of the sources; the exit-message DTO is
therefore modelled from the spec. -/

/-- Modelled from the spec: the bare `ExitMessage` schema
(`\x7b message: \x7b epoch: string, validator_index: string \x7d, signature: string \x7d`);
`dto.js` is absent from the sources.  Any missing or mistyped field fails
validation. -/
def exitDTO (j : Json) : Option ExitMessage := do
  let msg ← j.getField "message"
  let epochJ ← msg.getField "epoch"
  let epoch ← epochJ.getStr
  let viJ ← msg.getField "validator_index"
  let validator_index ← viJ.getStr
  let sigJ ← j.getField "signature"
  let signature ← sigJ.getStr
  pure ⟨⟨epoch, validator_index⟩, signature⟩

/-- Modelled from the spec: the wrapped form
`\x7b exit: ExitMessage, fork_version: string \x7d`; `dto.js` is absent from the
sources. -/
def ethDoExitDTO (j : Json) : Option EthDoExitMessage := do
  let exitJ ← j.getField "exit"
  let inner ← exitDTO exitJ
  let fvJ ← j.getField "fork_version"
  let fork_version ← fvJ.getStr
  pure ⟨inner, fork_version⟩

/-- Result of `exitOrEthDoExitDTO`: either wire shape. -/
inductive ValidatedExit where
  | plain (m : ExitMessage) : ValidatedExit
  | ethdo (m : EthDoExitMessage) : ValidatedExit
deriving DecidableEq, Repr

/-- Modelled from the spec: `exitOrEthDoExitDTO` accepts either the bare or
the wrapped form and rejects everything else; `dto.js` is absent from the
sources. -/
def exitOrEthDoExitDTO (j : Json) : Option ValidatedExit :=
  match exitDTO j with
  | some m => some (.plain m)
  | none =>
    match ethDoExitDTO j with
    | some w => some (.ethdo w)
    | none => none

/-! ### Message Loader (`load`, service.ts lines 51-128) -/

/-- External collaborators and configuration consumed by `load`.
Fallible external calls are `Option`-valued; `none` means the call threw. -/
structure LoadDeps where
  /-- `config.MESSAGES_LOCATIONS` -/
  messagesLocations : List String
  /-- `config.MESSAGES_PASSWORD` (optional string configuration). -/
  messagesPassword : Option String
  /-- External S3 blob reader (`s3Service.read`). -/
  s3Read : String → Option String
  /-- External GCS blob reader (`gsService.read`). -/
  gsRead : String → Option String
  /-- External `JSON.parse`; `none` when the text is unparseable. -/
  parseJson : String → Option Json
  /-- Modelled from the spec: `encryptedMessageDTO` from the absent
  `dto.js`, validating the keystore envelope; kept abstract. -/
  encryptedMessageDTO : Json → Option Json
  /-- External `@chainsafe/bls-keystore` `decrypt` composed with
  `TextDecoder().decode`, producing the plaintext string. -/
  keystoreDecrypt : Json → String → Option String

/-- `readFile` (service.ts lines 105-107): dispatch on the URI scheme to
the S3 or GCS reader. -/
def readFile (deps : LoadDeps) (uri : String) : Option String :=
  if uri.startsWith "s3://" then deps.s3Read uri else deps.gsRead uri

/-- `decryptMessage` (service.ts lines 109-128): require a truthy password,
validate the envelope, decrypt, then re-parse the plaintext as JSON.
`none` means the function threw. -/
def decryptMessage (deps : LoadDeps) (input : Json) : Option Json := do
  let password ← deps.messagesPassword
  if password = "" then none else do
  let checked ← deps.encryptedMessageDTO input
  let stringed ← deps.keystoreDecrypt checked password
  let json ← deps.parseJson stringed
  pure json

/-- How processing of one storage location ends inside the `load` loop. -/
inductive LoadStep where
  /-- `readFile` threw: log and `continue`, no metric. -/
  | readFailed : LoadStep
  /-- JSON parse, decryption, or DTO validation failed: metric
  `valid: 'false'` and `continue`. -/
  | invalid : LoadStep
  /-- The location yielded a validated (and unwrapped) message. -/
  | loaded (m : ExitMessage) : LoadStep
  /-- The test `'crypto' in json` (service.ts line 74) threw a `TypeError`
  because the parse result was a JSON primitive.  The test sits outside
  every `try`/`catch` of the loop, so the exception escapes `load`
  itself. -/
  | threw : LoadStep
deriving Repr

/-- Final stage of the `load` loop body: dispose of the DTO validation
result, unwrapping the wrapped form (service.ts lines 86-99). -/
def loadStepValidated : Option ValidatedExit → LoadStep
  | none => .invalid
  | some (.plain m) => .loaded m
  | some (.ethdo w) => .loaded w.exit

/-- Stage of the `load` loop body after optional decryption: a thrown
decryption skips with metric, otherwise validate (service.ts
lines 74-99). -/
def loadStepDecrypted : Option Json → LoadStep
  | none => .invalid
  | some json2 => loadStepValidated (exitOrEthDoExitDTO json2)

/-- Stage of the `load` loop body after JSON parsing: an unparseable file
skips with metric; otherwise the unguarded test `'crypto' in json`
(service.ts line 74) either throws (primitive parse result), selects
decryption, or passes the payload through (service.ts lines 63-99). -/
def loadStepParsed (deps : LoadDeps) : Option Json → LoadStep
  | none => .invalid
  | some json =>
    match json.inOp "crypto" with
    | .error _ => .threw
    | .ok true => loadStepDecrypted (decryptMessage deps json)
    | .ok false => loadStepDecrypted (some json)

/-- Stage of the `load` loop body after the read: a thrown read skips with
no metric (service.ts lines 55-61). -/
def loadStepRead (deps : LoadDeps) : Option String → LoadStep
  | none => .readFailed
  | some read => loadStepParsed deps (deps.parseJson read)

/-- One iteration of the `load` loop body (service.ts lines 54-99) for a
single location. -/
def loadStep (deps : LoadDeps) (file : String) : LoadStep :=
  loadStepRead deps (readFile deps file)

/-- Result of one `load` call: the `messages` accumulator, the counters,
and whether an exception escaped the loop (`threw = true` when the
unguarded `'crypto' in json` test hit a primitive — the caller then sees
the exception, not the messages, but the counter side effects up to that
point persist). -/
structure LoadResult where
  messages : List ExitMessage
  metrics : Metrics
  threw : Bool
deriving DecidableEq, Repr

/-- Effect of one location's outcome on the `messages` accumulator and the
counters: a failed read changes nothing, a skip-with-metric bumps the
invalid counter, a loaded message is appended, and the uncaught
`TypeError` changes no counter but marks the run as thrown. -/
def loadStepUpdate (step : LoadStep) (messages : List ExitMessage)
    (metrics : Metrics) : LoadResult :=
  match step with
  | .readFailed => ⟨messages, metrics, false⟩
  | .invalid => ⟨messages, metrics.incMessagesInvalid, false⟩
  | .loaded m => ⟨messages ++ [m], metrics, false⟩
  | .threw => ⟨messages, metrics, true⟩

/-- The `load` loop over the remaining locations, carrying the `messages`
accumulator and the metrics counters; an uncaught `TypeError` aborts the
remaining locations. -/
def loadAux (deps : LoadDeps) :
    List String → List ExitMessage → Metrics → LoadResult
  | [], messages, metrics => ⟨messages, metrics, false⟩
  | file :: rest, messages, metrics =>
    let r := loadStepUpdate (loadStep deps file) messages metrics
    if r.threw then r else loadAux deps rest r.messages r.metrics

/-- `load` (service.ts lines 51-103): fold the loop body over
`config.MESSAGES_LOCATIONS`, returning the loaded messages and the updated
counters.  Read, parse, decryption and validation failures are caught
inside the loop; the one uncaught path is the `TypeError` of
`'crypto' in json` on a primitive parse result (line 74), recorded in
`threw`. -/
def load (deps : LoadDeps) (metrics : Metrics) : LoadResult :=
  loadAux deps deps.messagesLocations [] metrics

/-- Whether a location ends in the skip-with-metric outcome. -/
def LoadStep.isInvalid : LoadStep → Bool
  | .invalid => true
  | _ => false

/-! ### Signature Verifier (`verify`, service.ts lines 130-219) -/

/-- External collaborators consumed by `verify`.  The whole per-fork
cryptographic chain (`fromHex`, `computeDomain(DOMAIN_VOLUNTARY_EXIT, fork,
genesisValidatorsRoot)`, `computeSigningRoot` over the parsed exit, and
`bls.verify`) is external library code and is modelled as one abstract
boolean function of its string inputs. -/
structure VerifyDeps where
  /-- `consensusApi.genesis()`; `none` means the fetch threw. -/
  genesis : Option GenesisInfo
  /-- `consensusApi.state()`; `none` means the fetch threw. -/
  state : Option ForkState
  /-- `consensusApi.validatorInfo(validatorIndex)`; `none` means the fetch
  threw. -/
  validatorInfo : String → Option ValidatorInfo
  /-- The external crypto stack of `verifyFork`: given the validator public
  key, the raw signature, the fork version, the genesis validators root,
  and the message's `epoch` and `validator_index`, decide BLS validity. -/
  blsVerifyExit : String → String → String → String → String → String → Bool

/-- How `verify` disposes of one message. -/
inductive VerifyOutcome where
  /-- `validatorInfo` fetch threw: metric `valid: 'false'`, `continue`. -/
  | infoFailed : VerifyOutcome
  /-- `validatorInfo.isExiting`: metric `valid: 'false'`, `continue`. -/
  | exiting : VerifyOutcome
  /-- signature invalid under both forks: metric `valid: 'false'`,
  `continue`. -/
  | invalidSignature : VerifyOutcome
  /-- appended to `validMessages`, metric `valid: 'true'`. -/
  | accepted : VerifyOutcome
deriving DecidableEq, Repr

/-- One iteration of the `verify` loop body (service.ts lines 136-216) for
one message: its outcome together with the list of `verifyFork`
evaluations it performed, each recorded as
(`validator_index`, fork version).  The current fork is evaluated first;
the previous fork is evaluated only if the current one failed. -/
def verifyChecks (deps : VerifyDeps) (genesis : GenesisInfo)
    (state : ForkState) (m : ExitMessage) :
    VerifyOutcome × List (String × String) :=
  match deps.validatorInfo m.message.validator_index with
  | none => (.infoFailed, [])
  | some info =>
    if info.isExiting then (.exiting, [])
    else
      let checkFork : String → Bool := fun fork =>
        deps.blsVerifyExit info.pubKey m.signature fork
          genesis.genesis_validators_root m.message.epoch
          m.message.validator_index
      if checkFork state.current_version then
        (.accepted, [(m.message.validator_index, state.current_version)])
      else if checkFork state.previous_version then
        (.accepted, [(m.message.validator_index, state.current_version),
                     (m.message.validator_index, state.previous_version)])
      else
        (.invalidSignature,
         [(m.message.validator_index, state.current_version),
          (m.message.validator_index, state.previous_version)])

/-- Effect of one message's outcome on the `validMessages` accumulator,
the counters, and the fork-evaluation trace: every skip bumps the invalid
counter, an accepted message is appended and bumps the valid counter. -/
def verifyStepUpdate (res : VerifyOutcome × List (String × String))
    (m : ExitMessage) (valid : List ExitMessage) (metrics : Metrics)
    (trace : List (String × String)) :
    List ExitMessage × Metrics × List (String × String) :=
  match res with
  | (.infoFailed, t) => (valid, metrics.incMessagesInvalid, trace ++ t)
  | (.exiting, t) => (valid, metrics.incMessagesInvalid, trace ++ t)
  | (.invalidSignature, t) =>
    (valid, metrics.incMessagesInvalid, trace ++ t)
  | (.accepted, t) => (valid ++ [m], metrics.incMessagesValid, trace ++ t)

/-- The `verify` loop over the remaining messages, carrying the
`validMessages` accumulator, the metrics counters, and the fork-evaluation
trace. -/
def verifyAux (deps : VerifyDeps) (genesis : GenesisInfo)
    (state : ForkState) :
    List ExitMessage → List ExitMessage → Metrics →
      List (String × String) →
      List ExitMessage × Metrics × List (String × String)
  | [], valid, metrics, trace => (valid, metrics, trace)
  | m :: rest, valid, metrics, trace =>
    let r := verifyStepUpdate (verifyChecks deps genesis state m) m valid
      metrics trace
    verifyAux deps genesis state rest r.1 r.2.1 r.2.2

/-- `verify` (service.ts lines 130-219): fetch genesis and fork state once
for the whole batch (a failure of either aborts the pass, hence the
`Except`), then filter the messages.  Returns the accepted messages, the
updated counters, and the fork-evaluation trace. -/
def verify (deps : VerifyDeps) (messages : List ExitMessage)
    (metrics : Metrics) :
    Except Unit (List ExitMessage × Metrics × List (String × String)) :=
  match deps.genesis with
  | none => .error ()
  | some genesis =>
    match deps.state with
    | none => .error ()
    | some state => .ok (verifyAux deps genesis state messages [] metrics [])

/-- Whether `verify` accepts a given message (the Boolean shadow of
`verifyChecks`). -/
def acceptedB (deps : VerifyDeps) (genesis : GenesisInfo)
    (state : ForkState) (m : ExitMessage) : Bool :=
  (verifyChecks deps genesis state m).1 = VerifyOutcome.accepted

/-- The fork evaluations `verify` performs for a given message. -/
def msgTrace (deps : VerifyDeps) (genesis : GenesisInfo)
    (state : ForkState) (m : ExitMessage) : List (String × String) :=
  (verifyChecks deps genesis state m).2

/-! ### Exit Trigger (`exit`, service.ts lines 221-256) -/

/-- Outbound remote calls recorded while processing ejections (used to
count fetches and submissions). -/
inductive Call where
  /-- `consensusApi.validatorInfo(pubKey)` was invoked. -/
  | validatorInfoCall (pubKey : String) : Call
  /-- `consensusApi.exitRequest(message)` was invoked, recorded by the
  message's `validator_index`. -/
  | exitRequestCall (validatorIndex : String) : Call
  /-- `executionApi.logs(fromBlock, toBlock)` was invoked. -/
  | logsCall (fromBlock toBlock : Int) : Call
deriving DecidableEq, Repr

/-- External collaborators consumed by `exit`. -/
structure ExitDeps where
  /-- `consensusApi.validatorInfo(pubKey)`; `none` means the fetch
  threw. -/
  validatorInfo : String → Option ValidatorInfo
  /-- `consensusApi.exitRequest(message)`; `none` means the submission
  threw. -/
  exitRequest : ExitMessage → Option Unit

/-- Result of one `exit` call: the updated counters, the outbound calls it
made (in order), and whether it propagated an exception to its caller. -/
structure ExitResult where
  metrics : Metrics
  calls : List Call
  threw : Bool
deriving DecidableEq, Repr

/-- `exit` (service.ts lines 221-256).  Note the source fetches
`validatorInfo(pubKey)` twice: once for the `isExiting` check (line 222)
and once more to read `.index` (line 229). -/
def exit (deps : ExitDeps) (messages : List ExitMessage) (pubKey : String)
    (metrics : Metrics) : ExitResult :=
  match deps.validatorInfo pubKey with
  | none => ⟨metrics, [.validatorInfoCall pubKey], true⟩
  | some info =>
    if info.isExiting then
      ⟨metrics, [.validatorInfoCall pubKey], false⟩
    else
      match deps.validatorInfo pubKey with
      | none =>
        ⟨metrics, [.validatorInfoCall pubKey, .validatorInfoCall pubKey],
         true⟩
      | some info2 =>
        let validatorIndex := info2.index
        match messages.find?
            (fun msg => msg.message.validator_index == validatorIndex) with
        | none =>
          ⟨metrics.incActionsError,
           [.validatorInfoCall pubKey, .validatorInfoCall pubKey], false⟩
        | some message =>
          match deps.exitRequest message with
          | some _ =>
            ⟨metrics.incActionsSuccess,
             [.validatorInfoCall pubKey, .validatorInfoCall pubKey,
              .exitRequestCall message.message.validator_index], false⟩
          | none =>
            ⟨metrics.incActionsError,
             [.validatorInfoCall pubKey, .validatorInfoCall pubKey,
              .exitRequestCall message.message.validator_index], false⟩

/-! ### Job Runner (`runJob`, service.ts lines 258-301) -/

/-- One ejection event from the exit-bus contract logs. -/
structure EjectionEvent where
  validatorPubkey : String
deriving DecidableEq, Repr

/-- External collaborators consumed by `runJob`. -/
structure RunJobDeps where
  /-- `executionApi.resolveExitBusAddress()`; `none` means it threw. -/
  resolveExitBusAddress : Option Unit
  /-- `executionApi.resolveConsensusAddress()`; `none` means it threw. -/
  resolveConsensusAddress : Option Unit
  /-- `executionApi.latestBlockNumber()`; `none` means it threw. -/
  latestBlockNumber : Option Int
  /-- `executionApi.logs(fromBlock, toBlock)`; `none` means it threw. -/
  logs : Int → Int → Option (List EjectionEvent)
  /-- The consensus-client calls used by the per-event `exit`. -/
  exitDeps : ExitDeps

/-- Result of one `runJob` call: counters, recorded outbound calls, and
whether the job itself threw (per-event `exit` failures are caught inside
the loop and never abort the job). -/
structure RunJobResult where
  metrics : Metrics
  calls : List Call
  threw : Bool
deriving DecidableEq, Repr

/-- The per-event loop of `runJob` (service.ts lines 291-298): each event
is handed to `exit` inside a `try`/`catch`, so a throwing `exit` does not
stop the loop. -/
def runJobEvents (deps : RunJobDeps) (messages : List ExitMessage) :
    List EjectionEvent → Metrics → List Call → Metrics × List Call
  | [], metrics, calls => (metrics, calls)
  | event :: rest, metrics, calls =>
    let r := exit deps.exitDeps messages event.validatorPubkey metrics
    runJobEvents deps messages rest r.metrics (calls ++ r.calls)

/-- `runJob` (service.ts lines 258-301): re-resolve the two contract
addresses, fetch the latest block number `toBlock`, compute
`fromBlock := toBlock - eventsNumber`, fetch the logs for that window
once, then drive `exit` for each event. -/
def runJob (deps : RunJobDeps) (eventsNumber : Int)
    (messages : List ExitMessage) (metrics : Metrics) : RunJobResult :=
  match deps.resolveExitBusAddress with
  | none => ⟨metrics, [], true⟩
  | some _ =>
    match deps.resolveConsensusAddress with
    | none => ⟨metrics, [], true⟩
    | some _ =>
      match deps.latestBlockNumber with
      | none => ⟨metrics, [], true⟩
      | some toBlock =>
        let fromBlock := toBlock - eventsNumber
        match deps.logs fromBlock toBlock with
        | none => ⟨metrics, [.logsCall fromBlock toBlock], true⟩
        | some events =>
          let r := runJobEvents deps messages events metrics
            [.logsCall fromBlock toBlock]
          ⟨r.1, r.2, false⟩

/-- Whether a recorded call is a `logs` invocation. -/
def Call.isLogsCall : Call → Bool
  | .logsCall _ _ => true
  | _ => false

/-- Whether a recorded call is an `exitRequest` submission. -/
def Call.isExitRequestCall : Call → Bool
  | .exitRequestCall _ => true
  | _ => false

/-- Whether a recorded call is a `validatorInfo` fetch. -/
def Call.isValidatorInfoCall : Call → Bool
  | .validatorInfoCall _ => true
  | _ => false

/-! ### Characterization lemmas -/

/-- The `verify` loop appends, in input order, exactly the accepted
messages, bumps the valid counter once per accepted message and the
invalid counter once per skipped message, and appends each message's fork
evaluations to the trace in order. -/
theorem verifyAux_spec (deps : VerifyDeps) (g : GenesisInfo)
    (s : ForkState) :
    ∀ (messages valid : List ExitMessage) (metrics : Metrics)
      (trace : List (String × String)),
    verifyAux deps g s messages valid metrics trace =
      (valid ++ messages.filter (fun m => acceptedB deps g s m),
       { metrics with
         exitMessagesValid := metrics.exitMessagesValid +
           (messages.filter (fun m => acceptedB deps g s m)).length,
         exitMessagesInvalid := metrics.exitMessagesInvalid +
           (messages.filter (fun m => !acceptedB deps g s m)).length },
       trace ++ messages.flatMap (fun m => msgTrace deps g s m))
  | [], valid, metrics, trace => by simp [verifyAux]
  | m :: rest, valid, metrics, trace => by
    have ih := verifyAux_spec deps g s rest
    rcases hvc : verifyChecks deps g s m with ⟨o, t⟩
    have haccept : acceptedB deps g s m = decide (o = .accepted) := by
      simp [acceptedB, hvc]
    have htrace : msgTrace deps g s m = t := by
      simp [msgTrace, hvc]
    cases o with
    | infoFailed =>
      simp [verifyAux, hvc, verifyStepUpdate, ih, haccept, htrace,
        Metrics.incMessagesInvalid]
      omega
    | exiting =>
      simp [verifyAux, hvc, verifyStepUpdate, ih, haccept, htrace,
        Metrics.incMessagesInvalid]
      omega
    | invalidSignature =>
      simp [verifyAux, hvc, verifyStepUpdate, ih, haccept, htrace,
        Metrics.incMessagesInvalid]
      omega
    | accepted =>
      simp [verifyAux, hvc, verifyStepUpdate, ih, haccept, htrace,
        Metrics.incMessagesValid]
      omega

/-- Filtering with an everywhere-false predicate yields the empty list. -/
theorem filter_none_of_all_false {α : Type} (p : α → Bool) :
    ∀ l : List α, (∀ a ∈ l, p a = false) → l.filter p = []
  | [], _ => rfl
  | a :: l, h => by
    have ha := h a (by simp)
    have hl := filter_none_of_all_false p l fun b hb => h b (by simp [hb])
    simp [List.filter, ha, hl]

/-- Filtering with an everywhere-true predicate keeps the whole list. -/
theorem filter_all_of_all_true {α : Type} (p : α → Bool) :
    ∀ l : List α, (∀ a ∈ l, p a = true) → l.filter p = l
  | [], _ => rfl
  | a :: l, h => by
    have ha := h a (by simp)
    have hl := filter_all_of_all_true p l fun b hb => h b (by simp [hb])
    simp [List.filter, ha, hl]

/-- A flat map whose pieces are all empty is empty. -/
theorem flatMap_nil_of_all_nil {α β : Type} (f : α → List β) :
    ∀ l : List α, (∀ a ∈ l, f a = []) → l.flatMap f = []
  | [], _ => rfl
  | a :: l, h => by
    have ha := h a (by simp)
    have hl := flatMap_nil_of_all_nil f l fun b hb => h b (by simp [hb])
    simp [ha, hl]

/-- A search with an everywhere-false predicate finds nothing. -/
theorem find_none_of_all_false {α : Type} (p : α → Bool) :
    ∀ l : List α, (∀ a ∈ l, p a = false) → l.find? p = none
  | [], _ => rfl
  | a :: l, h => by
    have ha := h a (by simp)
    have hl := find_none_of_all_false p l fun b hb => h b (by simp [hb])
    simp [List.find?, ha, hl]

/-- Branch lemma: a failing `validatorInfo` fetch skips the message with
no fork evaluation. -/
theorem verifyChecks_infoFailed (deps : VerifyDeps) (g : GenesisInfo)
    (s : ForkState) (m : ExitMessage)
    (h : deps.validatorInfo m.message.validator_index = none) :
    verifyChecks deps g s m = (.infoFailed, []) := by
  simp [verifyChecks, h]

/-- Branch lemma: an exiting validator skips the message with no fork
evaluation. -/
theorem verifyChecks_exiting (deps : VerifyDeps) (g : GenesisInfo)
    (s : ForkState) (m : ExitMessage) (info : ValidatorInfo)
    (h : deps.validatorInfo m.message.validator_index = some info)
    (hex : info.isExiting = true) :
    verifyChecks deps g s m = (.exiting, []) := by
  simp [verifyChecks, h, hex]

/-- The current-fork signature check of a message against a given
validator record. -/
def blsCur (deps : VerifyDeps) (g : GenesisInfo) (s : ForkState)
    (info : ValidatorInfo) (m : ExitMessage) : Bool :=
  deps.blsVerifyExit info.pubKey m.signature s.current_version
    g.genesis_validators_root m.message.epoch m.message.validator_index

/-- The previous-fork signature check of a message against a given
validator record. -/
def blsPrev (deps : VerifyDeps) (g : GenesisInfo) (s : ForkState)
    (info : ValidatorInfo) (m : ExitMessage) : Bool :=
  deps.blsVerifyExit info.pubKey m.signature s.previous_version
    g.genesis_validators_root m.message.epoch m.message.validator_index

/-- Branch lemma: a message whose signature passes under the current fork
is accepted after evaluating the current fork only. -/
theorem verifyChecks_acceptedCurrent (deps : VerifyDeps) (g : GenesisInfo)
    (s : ForkState) (m : ExitMessage) (info : ValidatorInfo)
    (h : deps.validatorInfo m.message.validator_index = some info)
    (hex : info.isExiting = false)
    (hcur : blsCur deps g s info m = true) :
    verifyChecks deps g s m =
      (.accepted, [(m.message.validator_index, s.current_version)]) := by
  simp only [verifyChecks, h, blsCur] at *
  simp [hex, hcur]

/-- Branch lemma: a message whose signature fails under the current fork
but passes under the previous one is accepted after evaluating both forks,
current first. -/
theorem verifyChecks_acceptedPrevious (deps : VerifyDeps)
    (g : GenesisInfo) (s : ForkState) (m : ExitMessage)
    (info : ValidatorInfo)
    (h : deps.validatorInfo m.message.validator_index = some info)
    (hex : info.isExiting = false)
    (hcur : blsCur deps g s info m = false)
    (hprev : blsPrev deps g s info m = true) :
    verifyChecks deps g s m =
      (.accepted, [(m.message.validator_index, s.current_version),
                   (m.message.validator_index, s.previous_version)]) := by
  simp only [verifyChecks, h, blsCur, blsPrev] at *
  simp [hex, hcur, hprev]

/-- Branch lemma: a message whose signature fails under both forks is
skipped after evaluating both forks, current first. -/
theorem verifyChecks_bothFail (deps : VerifyDeps) (g : GenesisInfo)
    (s : ForkState) (m : ExitMessage) (info : ValidatorInfo)
    (h : deps.validatorInfo m.message.validator_index = some info)
    (hex : info.isExiting = false)
    (hcur : blsCur deps g s info m = false)
    (hprev : blsPrev deps g s info m = false) :
    verifyChecks deps g s m =
      (.invalidSignature,
       [(m.message.validator_index, s.current_version),
        (m.message.validator_index, s.previous_version)]) := by
  simp only [verifyChecks, h, blsCur, blsPrev] at *
  simp [hex, hcur, hprev]

/-! ### Claims -/

/-- C2: `verify` never raises because of a single bad message.  For every
dependency environment, message list and counter state, the pass aborts
exactly when one of the two shared per-batch fetches (`GenesisInfo` via
`genesis()`, `ForkState` via `state()`) fails; whenever both succeed the
result is a per-message filter of the input — every per-message failure
(validator-info fetch, already-exiting validator, signature failure under
both forks) only skips that message. -/
theorem verify_raises_only_for_shared_fetches (deps : VerifyDeps)
    (messages : List ExitMessage) (metrics : Metrics) :
    verify deps messages metrics =
      match deps.genesis, deps.state with
      | some g, some s =>
        .ok (messages.filter (fun m => acceptedB deps g s m),
             { metrics with
               exitMessagesValid := metrics.exitMessagesValid +
                 (messages.filter (fun m => acceptedB deps g s m)).length,
               exitMessagesInvalid := metrics.exitMessagesInvalid +
                 (messages.filter
                   (fun m => !acceptedB deps g s m)).length },
             messages.flatMap (fun m => msgTrace deps g s m))
      | none, _ => .error ()
      | some _, none => .error () := by
  rcases hg : deps.genesis with _ | g
  · simp [verify, hg]
  · rcases hs : deps.state with _ | s
    · simp [verify, hg, hs]
    · simp [verify, hg, hs, verifyAux_spec]

/-- Concrete genesis record for the C1 counterexample. -/
def c1Genesis : GenesisInfo := ⟨"1606824023", "0xroot", "0x00000000"⟩

/-- Concrete fork state for the C1 counterexample. -/
def c1State : ForkState := ⟨"0x03000000", "0x04000000", "200"⟩

/-- Concrete validator record that is already exiting. -/
def c1Info : ValidatorInfo := ⟨"0xpub1", true, "17"⟩

/-- Concrete exit message of that validator. -/
def c1Msg : ExitMessage := ⟨⟨"100", "17"⟩, "0xsig1"⟩

/-- Concrete `verify` environment in which validator 17 reports
`isExiting == true` and every signature check would succeed. -/
def c1Deps : VerifyDeps :=
  ⟨some c1Genesis, some c1State, fun _ => some c1Info,
   fun _ _ _ _ _ _ => true⟩

/-- C1, counterexample: for the message of an `isExiting` validator,
`verify` does exclude it from the result, but — contrary to the claim —
it DOES increment the `'false'`-labeled exit-messages counter: starting
from all-zero counters, the invalid counter ends at 1, not 0. -/
theorem verify_exiting_increments_invalid_counterexample :
    verify c1Deps [c1Msg] Metrics.init =
      .ok ([], ⟨0, 1, 0, 0⟩, []) ∧
    Metrics.init.exitMessagesInvalid = 0 ∧ (1 : Nat) ≠ 0 := by
  refine ⟨?_, rfl, by decide⟩
  rfl

/-- C1, amended: for every input message whose validator reports
`isExiting == true`, `verify` excludes the message from its returned list
and increments the invalid-message (`valid: 'false'`) counter once for it,
performing no fork evaluation. -/
theorem verify_excludes_exiting_and_counts_invalid (deps : VerifyDeps)
    (g : GenesisInfo) (s : ForkState) (messages : List ExitMessage)
    (metrics : Metrics)
    (hg : deps.genesis = some g) (hs : deps.state = some s)
    (hex : ∀ m ∈ messages, ∃ info,
      deps.validatorInfo m.message.validator_index = some info ∧
      info.isExiting = true) :
    verify deps messages metrics =
      .ok ([], { metrics with exitMessagesInvalid :=
        metrics.exitMessagesInvalid + messages.length }, []) := by
  have hacc : ∀ m ∈ messages, acceptedB deps g s m = false := by
    intro m hm
    obtain ⟨info, hi, hx⟩ := hex m hm
    simp [acceptedB, verifyChecks_exiting deps g s m info hi hx]
  have hfa := filter_none_of_all_false
    (fun m => acceptedB deps g s m) messages hacc
  have hfb := filter_all_of_all_true
    (fun m => !acceptedB deps g s m) messages
    (by intro a ha; simp [hacc a ha])
  have htr := flatMap_nil_of_all_nil
    (fun m => msgTrace deps g s m) messages
    (by
      intro m hm
      obtain ⟨info, hi, hx⟩ := hex m hm
      simp [msgTrace, verifyChecks_exiting deps g s m info hi hx])
  simp [verify, hg, hs, verifyAux_spec, hfa, hfb, htr]

/-- C1, witness: the amended theorem applied to the concrete
already-exiting environment of the counterexample. -/
theorem verify_excludes_exiting_and_counts_invalid_witness :
    verify c1Deps [c1Msg] Metrics.init =
      .ok ([], ⟨0, 1, 0, 0⟩, []) := by
  have h := verify_excludes_exiting_and_counts_invalid c1Deps c1Genesis
    c1State [c1Msg] Metrics.init rfl rfl
    (by
      intro m hm
      exact ⟨c1Info, rfl, rfl⟩)
  simpa [Metrics.init] using h

/-- C4: for every batch in which each message belongs to a non-exiting
validator and carries a signature valid under the current fork, or valid
only under the previous fork, `verify` returns the whole batch unchanged
and increments the valid counter exactly once per message; moreover the
forks are tried in order current-then-previous, the previous fork being
evaluated only when the current fork fails. -/
theorem verify_accepts_current_or_previous_fork (deps : VerifyDeps)
    (g : GenesisInfo) (s : ForkState) (messages : List ExitMessage)
    (metrics : Metrics)
    (hg : deps.genesis = some g) (hs : deps.state = some s)
    (hok : ∀ m ∈ messages, ∃ info,
      deps.validatorInfo m.message.validator_index = some info ∧
      info.isExiting = false ∧
      (blsCur deps g s info m = true ∨ blsPrev deps g s info m = true)) :
    verify deps messages metrics =
      .ok (messages,
           { metrics with exitMessagesValid :=
             metrics.exitMessagesValid + messages.length },
           messages.flatMap (fun m => msgTrace deps g s m)) ∧
    (∀ m ∈ messages, ∀ info,
      deps.validatorInfo m.message.validator_index = some info →
      info.isExiting = false →
      (blsCur deps g s info m = true →
        msgTrace deps g s m =
          [(m.message.validator_index, s.current_version)]) ∧
      (blsCur deps g s info m = false → blsPrev deps g s info m = true →
        msgTrace deps g s m =
          [(m.message.validator_index, s.current_version),
           (m.message.validator_index, s.previous_version)])) := by
  have hacc : ∀ m ∈ messages, acceptedB deps g s m = true := by
    intro m hm
    obtain ⟨info, hi, hx, hor⟩ := hok m hm
    cases hc : blsCur deps g s info m with
    | true =>
      simp [acceptedB, verifyChecks_acceptedCurrent deps g s m info hi hx hc]
    | false =>
      have hp : blsPrev deps g s info m = true := by
        rcases hor with h1 | h1
        · rw [hc] at h1; exact absurd h1 (by simp)
        · exact h1
      simp [acceptedB,
        verifyChecks_acceptedPrevious deps g s m info hi hx hc hp]
  have hfa := filter_all_of_all_true
    (fun m => acceptedB deps g s m) messages hacc
  have hfb := filter_none_of_all_false
    (fun m => !acceptedB deps g s m) messages
    (by intro a ha; simp [hacc a ha])
  constructor
  · simp [verify, hg, hs, verifyAux_spec, hfa, hfb]
  · intro m _ info hi hx
    constructor
    · intro hc
      simp [msgTrace,
        verifyChecks_acceptedCurrent deps g s m info hi hx hc]
    · intro hc hp
      simp [msgTrace,
        verifyChecks_acceptedPrevious deps g s m info hi hx hc hp]

/-- Concrete genesis record for the C4 witness. -/
def c4Genesis : GenesisInfo := ⟨"1606824023", "0xroot", "0x00000000"⟩

/-- Concrete fork state for the C4 witness: previous version `0xprev`,
current version `0xcur`. -/
def c4State : ForkState := ⟨"0xprev", "0xcur", "200"⟩

/-- Concrete message of validator 1 (signed under the current fork). -/
def c4Msg1 : ExitMessage := ⟨⟨"100", "1"⟩, "0xsigA"⟩

/-- Concrete message of validator 2 (signed under the previous fork
only). -/
def c4Msg2 : ExitMessage := ⟨⟨"100", "2"⟩, "0xsigB"⟩

/-- Concrete `verify` environment for the C4 witness: both validators are
active; validator 1's signature verifies only under `0xcur`, validator 2's
only under `0xprev`. -/
def c4Deps : VerifyDeps :=
  ⟨some c4Genesis, some c4State,
   fun idx => some ⟨"0xpub" ++ idx, false, idx⟩,
   fun _ _ fork _ _ idx =>
     if idx = "1" then fork == "0xcur" else fork == "0xprev"⟩

/-- C4, witness: with one current-fork message and one previous-fork-only
message, `verify` returns both unchanged, counts two valid messages, and
the trace shows the previous fork evaluated only for the second
message. -/
theorem verify_accepts_current_or_previous_fork_witness :
    verify c4Deps [c4Msg1, c4Msg2] Metrics.init =
      .ok ([c4Msg1, c4Msg2], ⟨2, 0, 0, 0⟩,
           [("1", "0xcur"), ("2", "0xcur"), ("2", "0xprev")]) := by
  have h := verify_accepts_current_or_previous_fork c4Deps c4Genesis
    c4State [c4Msg1, c4Msg2] Metrics.init rfl rfl
    (by
      intro m hm
      simp only [List.mem_cons, List.not_mem_nil, or_false] at hm
      rcases hm with h1 | h1 <;> subst h1
      · exact ⟨⟨"0xpub1", false, "1"⟩, rfl, rfl, Or.inl (by decide)⟩
      · exact ⟨⟨"0xpub2", false, "2"⟩, rfl, rfl, Or.inr (by decide)⟩)
  rw [h.1]
  rfl

/-- Total number of counter increments recorded so far across the two
metrics. -/
def Metrics.total (m : Metrics) : Nat :=
  m.exitMessagesValid + m.exitMessagesInvalid + m.exitActionsSuccess +
    m.exitActionsError

/-- Branch lemma: a location whose read throws ends in the no-metric
skip. -/
theorem loadStep_readFailed (deps : LoadDeps) (file : String)
    (h : readFile deps file = none) :
    loadStep deps file = .readFailed := by
  rw [loadStep, h]
  rfl

/-- Branch lemma: a location whose content is unparseable JSON ends in the
skip-with-metric outcome. -/
theorem loadStep_parseFailed (deps : LoadDeps) (file : String) (s : String)
    (h1 : readFile deps file = some s) (h2 : deps.parseJson s = none) :
    loadStep deps file = .invalid := by
  rw [loadStep, h1, loadStepRead, h2]
  rfl

/-- Branch lemma: an encrypted location whose decryption throws ends in
the skip-with-metric outcome. -/
theorem loadStep_decryptFailed (deps : LoadDeps) (file : String)
    (s : String) (j : Json)
    (h1 : readFile deps file = some s) (h2 : deps.parseJson s = some j)
    (h3 : j.inOp "crypto" = Except.ok true)
    (h4 : decryptMessage deps j = none) :
    loadStep deps file = .invalid := by
  rw [loadStep, h1, loadStepRead, h2, loadStepParsed, h3]
  simp [h4, loadStepDecrypted]

/-- Branch lemma: an unencrypted location that fails schema validation
ends in the skip-with-metric outcome. -/
theorem loadStep_dtoFailed (deps : LoadDeps) (file : String) (s : String)
    (j : Json)
    (h1 : readFile deps file = some s) (h2 : deps.parseJson s = some j)
    (h3 : j.inOp "crypto" = Except.ok false)
    (h4 : exitOrEthDoExitDTO j = none) :
    loadStep deps file = .invalid := by
  rw [loadStep, h1, loadStepRead, h2, loadStepParsed, h3]
  simp [h4, loadStepDecrypted, loadStepValidated]

/-- Branch lemma: a location whose content parses to a JSON primitive
makes the unguarded `'crypto' in json` test throw a `TypeError` that
escapes the loop. -/
theorem loadStep_threw (deps : LoadDeps) (file : String) (s : String)
    (j : Json)
    (h1 : readFile deps file = some s) (h2 : deps.parseJson s = some j)
    (h3 : j.inOp "crypto" = Except.error ()) :
    loadStep deps file = .threw := by
  rw [loadStep, h1, loadStepRead, h2, loadStepParsed, h3]

/-- Concrete loader environment whose single location's read throws. -/
def c3Deps : LoadDeps :=
  { messagesLocations := ["s3://bucket/m1.json"]
    messagesPassword := none
    s3Read := fun _ => none
    gsRead := fun _ => none
    parseJson := fun _ => none
    encryptedMessageDTO := fun _ => none
    keystoreDecrypt := fun _ _ => none }

/-- C3, counterexample: on a location whose read fails, `load` skips the
location but increments NO counter at all — starting from all-zero
counters every counter is still zero afterwards, contradicting "exactly
one". -/
theorem load_read_failure_increments_no_counter_counterexample :
    load c3Deps Metrics.init = ⟨[], Metrics.init, false⟩ ∧
    Metrics.init.total = 0 ∧ (0 : Nat) ≠ 1 := by
  have hread : readFile c3Deps "s3://bucket/m1.json" = none := by
    simp [readFile, c3Deps]
  have hloc : c3Deps.messagesLocations = ["s3://bucket/m1.json"] := rfl
  refine ⟨?_, rfl, by decide⟩
  simp [load, hloc, loadAux, loadStepUpdate,
    loadStep_readFailed c3Deps "s3://bucket/m1.json" hread]

/-- C3, amended: every branch of `load`, `verify` and `exit` that
terminates a message or event increments exactly one counter, EXCEPT the
branch of `load` that skips a location whose read failed and the branch of
`exit` that skips an already-exiting validator, which increment no counter
at all.  Concretely: a single-location `load` whose read fails leaves the
counters untouched; each per-location disposition of the `load` loop
increments one counter exactly when it is the skip-with-metric outcome;
each per-message disposition of the `verify` loop increments exactly one
counter; and `exit` on an already-exiting validator changes nothing while
every completed non-exiting `exit` increments exactly one exit-action
counter. -/
theorem terminating_branch_metric_discipline :
    (∀ (deps : LoadDeps) (file : String) (metrics : Metrics),
      deps.messagesLocations = [file] → readFile deps file = none →
      load deps metrics = ⟨[], metrics, false⟩) ∧
    (∀ (step : LoadStep) (messages : List ExitMessage)
      (metrics : Metrics),
      ((loadStepUpdate step messages metrics).metrics).total =
        metrics.total + (if step.isInvalid = true then 1 else 0)) ∧
    (∀ (res : VerifyOutcome × List (String × String)) (m : ExitMessage)
      (valid : List ExitMessage) (metrics : Metrics)
      (trace : List (String × String)),
      ((verifyStepUpdate res m valid metrics trace).2.1).total =
        metrics.total + 1) ∧
    (∀ (deps : ExitDeps) (messages : List ExitMessage) (pubKey : String)
      (metrics : Metrics) (info : ValidatorInfo),
      deps.validatorInfo pubKey = some info →
      (info.isExiting = true →
        exit deps messages pubKey metrics =
          ⟨metrics, [.validatorInfoCall pubKey], false⟩) ∧
      (info.isExiting = false →
        ((exit deps messages pubKey metrics).metrics).total =
          metrics.total + 1)) := by
  refine ⟨?_, ?_, ?_, ?_⟩
  · intro deps file metrics hloc hread
    simp [load, hloc, loadAux, loadStepUpdate,
      loadStep_readFailed deps file hread]
  · intro step messages metrics
    cases step with
    | readFailed =>
      simp [loadStepUpdate, LoadStep.isInvalid, Metrics.total]
    | invalid =>
      simp [loadStepUpdate, LoadStep.isInvalid, Metrics.total,
        Metrics.incMessagesInvalid]
      omega
    | loaded m =>
      simp [loadStepUpdate, LoadStep.isInvalid, Metrics.total]
    | threw =>
      simp [loadStepUpdate, LoadStep.isInvalid, Metrics.total]
  · intro res m valid metrics trace
    rcases res with ⟨o, t⟩
    cases o <;>
      simp [verifyStepUpdate, Metrics.total, Metrics.incMessagesInvalid,
        Metrics.incMessagesValid] <;> omega
  · intro deps messages pubKey metrics info hinfo
    constructor
    · intro hex
      simp [exit, hinfo, hex]
    · intro hex
      rcases hfind : messages.find?
          (fun msg => msg.message.validator_index == info.index) with
        _ | message
      · simp [exit, hinfo, hex, hfind, Metrics.total,
          Metrics.incActionsError]
        omega
      · rcases hreq : deps.exitRequest message with _ | u
        · simp [exit, hinfo, hex, hfind, hreq, Metrics.total,
            Metrics.incActionsError]
          omega
        · simp [exit, hinfo, hex, hfind, hreq, Metrics.total,
            Metrics.incActionsSuccess]
          omega

/-- Concrete `exit` environment with an already-exiting validator. -/
def c3ExitDepsExiting : ExitDeps :=
  ⟨fun _ => some ⟨"0xpubX", true, "9"⟩, fun _ => some ()⟩

/-- Concrete `exit` environment with an active validator and no matching
message. -/
def c3ExitDepsActive : ExitDeps :=
  ⟨fun _ => some ⟨"0xpubY", false, "9"⟩, fun _ => some ()⟩

/-- C3, witness: the amended theorem applied to concrete inputs — a
failed-read `load` leaves all counters at zero, the skip-with-metric
disposition adds exactly one, every `verify` disposition adds exactly one,
`exit` on an exiting validator changes nothing, and a completed
non-exiting `exit` adds exactly one. -/
theorem terminating_branch_metric_discipline_witness :
    load c3Deps Metrics.init = ⟨[], Metrics.init, false⟩ ∧
    ((loadStepUpdate .invalid [] Metrics.init).metrics).total =
      Metrics.init.total + 1 ∧
    ((verifyStepUpdate (.accepted, []) c1Msg [] Metrics.init
      []).2.1).total = Metrics.init.total + 1 ∧
    exit c3ExitDepsExiting [] "0xpk" Metrics.init =
      ⟨Metrics.init, [.validatorInfoCall "0xpk"], false⟩ ∧
    ((exit c3ExitDepsActive [] "0xpk" Metrics.init).metrics).total =
      Metrics.init.total + 1 := by
  have h := terminating_branch_metric_discipline
  have hread : readFile c3Deps "s3://bucket/m1.json" = none := by
    simp [readFile, c3Deps]
  refine ⟨h.1 c3Deps "s3://bucket/m1.json" Metrics.init rfl hread,
    by simpa using h.2.1 .invalid [] Metrics.init,
    by simpa using h.2.2.1 (.accepted, []) c1Msg [] Metrics.init [],
    (h.2.2.2 c3ExitDepsExiting [] "0xpk" Metrics.init
      ⟨"0xpubX", true, "9"⟩ rfl).1 rfl,
    (h.2.2.2 c3ExitDepsActive [] "0xpk" Metrics.init
      ⟨"0xpubY", false, "9"⟩ rfl).2 rfl⟩

/-- C9: `exit` is a no-op on an already-exiting validator — whenever the
fetched `ValidatorInfo` reports `isExiting == true`, `exit` performs no
`exitRequest` submission, increments no metric, and returns normally, so a
repeated ejection event after a successful exit causes no duplicate
submission. -/
theorem exit_idempotent_on_exiting_validator (deps : ExitDeps)
    (messages : List ExitMessage) (pubKey : String) (metrics : Metrics)
    (info : ValidatorInfo)
    (hinfo : deps.validatorInfo pubKey = some info)
    (hex : info.isExiting = true) :
    exit deps messages pubKey metrics =
      ⟨metrics, [.validatorInfoCall pubKey], false⟩ := by
  simp [exit, hinfo, hex]

/-- Concrete `exit` environment for the C9 witness: the validator already
reports `isExiting == true` (as after a successful first exit). -/
def c9Deps : ExitDeps :=
  ⟨fun _ => some ⟨"0xpub9", true, "21"⟩, fun _ => some ()⟩

/-- C9, witness: the theorem applied to a concrete already-exited
validator: one info fetch, no submission, counters untouched. -/
theorem exit_idempotent_on_exiting_validator_witness :
    exit c9Deps [⟨⟨"100", "21"⟩, "0xsig9"⟩] "0xpk9" Metrics.init =
      ⟨Metrics.init, [.validatorInfoCall "0xpk9"], false⟩ :=
  exit_idempotent_on_exiting_validator c9Deps
    [⟨⟨"100", "21"⟩, "0xsig9"⟩] "0xpk9" Metrics.init
    ⟨"0xpub9", true, "21"⟩ rfl rfl

/-- C7: when the validator is not already exiting and no loaded message
matches its index, `exit` performs no `exitRequest` submission, increments
the exit-action `error` counter exactly once, and simply returns (no retry
within the call). -/
theorem exit_no_matching_message_errors_once (deps : ExitDeps)
    (messages : List ExitMessage) (pubKey : String) (metrics : Metrics)
    (info : ValidatorInfo)
    (hinfo : deps.validatorInfo pubKey = some info)
    (hex : info.isExiting = false)
    (hnone : ∀ m ∈ messages,
      (m.message.validator_index == info.index) = false) :
    exit deps messages pubKey metrics =
      ⟨metrics.incActionsError,
       [.validatorInfoCall pubKey, .validatorInfoCall pubKey],
       false⟩ := by
  have hfind := find_none_of_all_false
    (fun msg => msg.message.validator_index == info.index) messages hnone
  simp [exit, hinfo, hex, hfind]

/-- Concrete `exit` environment for the C7 witness: validator 33 is
active, but the only loaded message is for validator 44. -/
def c7Deps : ExitDeps :=
  ⟨fun _ => some ⟨"0xpub7", false, "33"⟩, fun _ => some ()⟩

/-- C7, witness: the theorem applied to a concrete mismatching batch: no
submission call is recorded and only the error counter moves, by one. -/
theorem exit_no_matching_message_errors_once_witness :
    exit c7Deps [⟨⟨"100", "44"⟩, "0xsig7"⟩] "0xpk7" Metrics.init =
      ⟨Metrics.init.incActionsError,
       [.validatorInfoCall "0xpk7", .validatorInfoCall "0xpk7"],
       false⟩ :=
  exit_no_matching_message_errors_once c7Deps
    [⟨⟨"100", "44"⟩, "0xsig7"⟩] "0xpk7" Metrics.init
    ⟨"0xpub7", false, "33"⟩ rfl rfl
    (by intro m hm; simp at hm; subst hm; decide)

/-- Concrete `exit` environment for the C8 counterexample: the validator
is active. -/
def c8Deps : ExitDeps :=
  ⟨fun _ => some ⟨"0xpub8", false, "7"⟩, fun _ => some ()⟩

/-- C8, counterexample: on a non-exiting validator, `exit` fetches
`ValidatorInfo` for the pubkey TWICE (service.ts lines 222 and 229), not
exactly once as claimed: the recorded calls contain two `validatorInfo`
fetches. -/
theorem exit_fetches_info_twice_counterexample :
    ((exit c8Deps [] "0xpk8" Metrics.init).calls.filter
      Call.isValidatorInfoCall).length = 2 ∧ (2 : Nat) ≠ 1 := by
  constructor
  · rfl
  · decide

/-- C8, amended: on a non-exiting validator, `exit` fetches
`ValidatorInfo` for the pubkey exactly twice — once for the `isExiting`
check and once more to read `.index` — and, the per-run consensus view
being a fixed mapping, the index used to locate the matching message is
`info.index` of that same mapping's record for the pubkey. -/
theorem exit_resolves_index_from_refetched_info (deps : ExitDeps)
    (messages : List ExitMessage) (pubKey : String) (metrics : Metrics)
    (info : ValidatorInfo)
    (hinfo : deps.validatorInfo pubKey = some info)
    (hex : info.isExiting = false) :
    ((exit deps messages pubKey metrics).calls.filter
      Call.isValidatorInfoCall).length = 2 ∧
    exit deps messages pubKey metrics =
      (match messages.find?
          (fun msg => msg.message.validator_index == info.index) with
       | none =>
         ⟨metrics.incActionsError,
          [.validatorInfoCall pubKey, .validatorInfoCall pubKey], false⟩
       | some message =>
         match deps.exitRequest message with
         | some _ =>
           ⟨metrics.incActionsSuccess,
            [.validatorInfoCall pubKey, .validatorInfoCall pubKey,
             .exitRequestCall message.message.validator_index], false⟩
         | none =>
           ⟨metrics.incActionsError,
            [.validatorInfoCall pubKey, .validatorInfoCall pubKey,
             .exitRequestCall message.message.validator_index], false⟩) := by
  rcases hfind : messages.find?
      (fun msg => msg.message.validator_index == info.index) with
    _ | message
  · constructor
    · simp [exit, hinfo, hex, hfind, Call.isValidatorInfoCall]
    · simp [exit, hinfo, hex, hfind]
  · rcases hreq : deps.exitRequest message with _ | u
    · constructor
      · simp [exit, hinfo, hex, hfind, hreq, Call.isValidatorInfoCall,
          Call.isExitRequestCall]
      · simp [exit, hinfo, hex, hfind, hreq]
    · constructor
      · simp [exit, hinfo, hex, hfind, hreq, Call.isValidatorInfoCall,
          Call.isExitRequestCall]
      · simp [exit, hinfo, hex, hfind, hreq]

/-- C8, witness: the amended theorem applied to the concrete environment
of the counterexample. -/
theorem exit_resolves_index_from_refetched_info_witness :
    ((exit c8Deps [] "0xpk8" Metrics.init).calls.filter
      Call.isValidatorInfoCall).length = 2 ∧
    exit c8Deps [] "0xpk8" Metrics.init =
      ⟨Metrics.init.incActionsError,
       [.validatorInfoCall "0xpk8", .validatorInfoCall "0xpk8"],
       false⟩ := by
  have h := exit_resolves_index_from_refetched_info c8Deps [] "0xpk8"
    Metrics.init ⟨"0xpub8", false, "7"⟩ rfl rfl
  exact ⟨h.1, by simpa using h.2⟩

/-- `exit` never records a `logs` call: its outbound calls are consensus
calls only. -/
theorem exit_calls_no_logs (deps : ExitDeps) (messages : List ExitMessage)
    (pubKey : String) (metrics : Metrics) :
    ((exit deps messages pubKey metrics).calls).filter Call.isLogsCall =
      [] := by
  rcases h1 : deps.validatorInfo pubKey with _ | info
  · simp [exit, h1, Call.isLogsCall]
  · cases hex : info.isExiting
    · rcases hfind : messages.find?
          (fun msg => msg.message.validator_index == info.index) with
        _ | message
      · simp [exit, h1, hex, hfind, Call.isLogsCall]
      · rcases hreq : deps.exitRequest message with _ | u
        · simp [exit, h1, hex, hfind, hreq, Call.isLogsCall]
        · simp [exit, h1, hex, hfind, hreq, Call.isLogsCall]
    · simp [exit, h1, hex, Call.isLogsCall]

/-- The per-event loop adds no `logs` calls to the call record. -/
theorem runJobEvents_adds_no_logs (deps : RunJobDeps)
    (messages : List ExitMessage) :
    ∀ (events : List EjectionEvent) (metrics : Metrics)
      (calls : List Call),
    ((runJobEvents deps messages events metrics calls).2).filter
        Call.isLogsCall =
      calls.filter Call.isLogsCall
  | [], metrics, calls => rfl
  | event :: rest, metrics, calls => by
    have ih := runJobEvents_adds_no_logs deps messages rest
    simp [runJobEvents, ih, List.filter_append, exit_calls_no_logs]

/-- C5: whenever the two address resolutions succeed and
`latestBlockNumber` returns `B`, `runJob` with window width `eventsNumber`
invokes the execution client's `logs` call exactly once, with the range
`[B - eventsNumber, B]` — whether or not that call itself succeeds, and
regardless of the events and messages processed afterwards. -/
theorem runJob_queries_logs_once_with_window (deps : RunJobDeps)
    (eventsNumber : Int) (messages : List ExitMessage)
    (metrics : Metrics) (B : Int)
    (h1 : deps.resolveExitBusAddress = some ())
    (h2 : deps.resolveConsensusAddress = some ())
    (h3 : deps.latestBlockNumber = some B) :
    ((runJob deps eventsNumber messages metrics).calls).filter
        Call.isLogsCall =
      [.logsCall (B - eventsNumber) B] := by
  rcases hlogs : deps.logs (B - eventsNumber) B with _ | events
  · simp [runJob, h1, h2, h3, hlogs, Call.isLogsCall]
  · simp [runJob, h1, h2, h3, hlogs, runJobEvents_adds_no_logs,
      Call.isLogsCall]

/-- Concrete `runJob` environment for the C5 witness: the latest block is
1000 and the window contains no events. -/
def c5Deps : RunJobDeps :=
  ⟨some (), some (), some 1000, fun _ _ => some [],
   ⟨fun _ => none, fun _ => none⟩⟩

/-- C5, witness: with `eventsNumber = 100` and latest block 1000, the one
recorded `logs` call is `logs(900, 1000)`. -/
theorem runJob_queries_logs_once_with_window_witness :
    ((runJob c5Deps 100 [] Metrics.init).calls).filter Call.isLogsCall =
      [.logsCall 900 1000] := by
  have h := runJob_queries_logs_once_with_window c5Deps 100 [] Metrics.init
    1000 rfl rfl rfl
  simpa using h

/-- Branch lemma: an unencrypted location validating as a bare
`ExitMessage` loads it as is. -/
theorem loadStep_loadedPlain (deps : LoadDeps) (file : String)
    (s : String) (j : Json) (m : ExitMessage)
    (h1 : readFile deps file = some s) (h2 : deps.parseJson s = some j)
    (h3 : j.inOp "crypto" = Except.ok false)
    (h4 : exitOrEthDoExitDTO j = some (.plain m)) :
    loadStep deps file = .loaded m := by
  rw [loadStep, h1, loadStepRead, h2, loadStepParsed, h3]
  simp [h4, loadStepDecrypted, loadStepValidated]

/-- Branch lemma: an unencrypted location validating as a wrapped
(`ethdo`) message loads its unwrapped inner exit message. -/
theorem loadStep_loadedWrapped (deps : LoadDeps) (file : String)
    (s : String) (j : Json) (w : EthDoExitMessage)
    (h1 : readFile deps file = some s) (h2 : deps.parseJson s = some j)
    (h3 : j.inOp "crypto" = Except.ok false)
    (h4 : exitOrEthDoExitDTO j = some (.ethdo w)) :
    loadStep deps file = .loaded w.exit := by
  rw [loadStep, h1, loadStepRead, h2, loadStepParsed, h3]
  simp [h4, loadStepDecrypted, loadStepValidated]

/-- The message loaded by the C6 scenario's second location. -/
def c6Msg : ExitMessage := ⟨⟨"100", "5"⟩, "0xsigC"⟩

/-- Parsed JSON of the C6 scenario's second location: a well-formed bare
exit message. -/
def c6Json2 : Json :=
  .obj [("message", .obj [("epoch", .str "100"),
                          ("validator_index", .str "5")]),
        ("signature", .str "0xsigC")]

/-- Parsed JSON of the C6 scenario's third location: missing the
`signature` field. -/
def c6Json3 : Json :=
  .obj [("message", .obj [("epoch", .str "100"),
                          ("validator_index", .str "6")])]

/-- Blob reader of the C6 scenario (same mapping for both schemes). -/
def c6Read : String → Option String := fun uri =>
  if uri = "gs://bucket/1.json" then some "badjson"
  else if uri = "gs://bucket/2.json" then some "file2"
  else if uri = "gs://bucket/3.json" then some "file3"
  else none

/-- External JSON parser of the C6 scenario: the first file's content is
unparseable, the other two parse to the records above. -/
def c6Parse : String → Option Json := fun s =>
  if s = "file2" then some c6Json2
  else if s = "file3" then some c6Json3
  else none

/-- Concrete loader environment of the C6 scenario: three locations — one
with invalid JSON, one with a valid message, one whose message is missing
`signature`. -/
def c6Deps : LoadDeps :=
  ⟨["gs://bucket/1.json", "gs://bucket/2.json", "gs://bucket/3.json"],
   none, c6Read, c6Read, c6Parse, fun _ => none, fun _ _ => none⟩

/-- Blob reader of the C6 failing input (same mapping for both schemes):
the first location's content is the two-character text `42` — a valid
JSON document — and the second holds a well-formed exit message. -/
def c6BugRead : String → Option String := fun uri =>
  if uri = "gs://bucket/42.json" then some "42"
  else if uri = "gs://bucket/2.json" then some "file2"
  else none

/-- External JSON parser of the C6 failing input: `JSON.parse("42")`
succeeds and returns the primitive number 42; the second file parses to a
well-formed exit message. -/
def c6BugParse : String → Option Json := fun s =>
  if s = "42" then some (.num 42) else c6Parse s

/-- Concrete loader environment of the C6 failing input: two locations,
the first holding the primitive JSON document `42`, the second a valid
exit message. -/
def c6BugDeps : LoadDeps :=
  ⟨["gs://bucket/42.json", "gs://bucket/2.json"], none,
   c6BugRead, c6BugRead, c6BugParse, fun _ => none, fun _ _ => none⟩

/-- C6: the claim says `load` never raises past an individual location,
but the code can.  At service.ts line 74 the test `'crypto' in json` runs
outside every `try`/`catch`, and the JavaScript `in` operator throws a
`TypeError` when its right operand is a primitive — which `JSON.parse`
can return (`42` is a valid JSON document that passes the parse
`try`/`catch`).  On the two-location failing input, `load` aborts with
the uncaught exception, returning no messages and never reaching the
second location, even though that location alone would have loaded
cleanly (second conjunct).  The claim's own three-location scenario
(invalid JSON / valid message / missing `signature`), whose parse results
are all objects, does hold: one message, two invalid increments, no
exception (third conjunct). -/
theorem load_aborts_on_primitive_json_payload :
    load c6BugDeps Metrics.init = ⟨[], Metrics.init, true⟩ ∧
    loadStep c6BugDeps "gs://bucket/2.json" = .loaded c6Msg ∧
    load c6Deps Metrics.init = ⟨[c6Msg], ⟨0, 2, 0, 0⟩, false⟩ := by
  have hbr : ∀ u, readFile c6BugDeps u = c6BugRead u := by
    intro u; simp [readFile, c6BugDeps]
  have hb1 : loadStep c6BugDeps "gs://bucket/42.json" = .threw :=
    loadStep_threw c6BugDeps _ "42" (.num 42) (by rw [hbr]; rfl) rfl rfl
  have hb2 : loadStep c6BugDeps "gs://bucket/2.json" = .loaded c6Msg :=
    loadStep_loadedPlain c6BugDeps _ "file2" c6Json2 c6Msg
      (by rw [hbr]; rfl) rfl rfl rfl
  have hbloc : c6BugDeps.messagesLocations =
      ["gs://bucket/42.json", "gs://bucket/2.json"] := rfl
  have hr : ∀ u, readFile c6Deps u = c6Read u := by
    intro u; simp [readFile, c6Deps]
  have hs1 : loadStep c6Deps "gs://bucket/1.json" = .invalid :=
    loadStep_parseFailed c6Deps _ "badjson" (by rw [hr]; rfl) rfl
  have hs2 : loadStep c6Deps "gs://bucket/2.json" = .loaded c6Msg :=
    loadStep_loadedPlain c6Deps _ "file2" c6Json2 c6Msg
      (by rw [hr]; rfl) rfl rfl rfl
  have hs3 : loadStep c6Deps "gs://bucket/3.json" = .invalid :=
    loadStep_dtoFailed c6Deps _ "file3" c6Json3 (by rw [hr]; rfl) rfl
      rfl rfl
  have hloc : c6Deps.messagesLocations =
      ["gs://bucket/1.json", "gs://bucket/2.json",
       "gs://bucket/3.json"] := rfl
  refine ⟨?_, hb2, ?_⟩
  · simp [load, hbloc, loadAux, loadStepUpdate, hb1]
  · simp [load, hloc, loadAux, loadStepUpdate, hs1, hs2, hs3,
      Metrics.incMessagesInvalid, Metrics.init]

/-- C10: in `load`, a parsed JSON object carrying a top-level `crypto` key
is unconditionally treated as an encrypted envelope; when no
`MESSAGES_PASSWORD` is configured (absent, or present but empty hence
falsy), the location is skipped with one invalid-message increment
regardless of the rest of its content — in particular regardless of how
the envelope schema validator and the decryptor would behave, because the
password check precedes envelope validation. -/
theorem load_crypto_key_requires_password (deps : LoadDeps)
    (file : String) (s : String) (j : Json) (metrics : Metrics)
    (hloc : deps.messagesLocations = [file])
    (hpw : deps.messagesPassword = none ∨ deps.messagesPassword = some "")
    (hread : readFile deps file = some s)
    (hparse : deps.parseJson s = some j)
    (hcrypto : j.inOp "crypto" = Except.ok true) :
    load deps metrics = ⟨[], metrics.incMessagesInvalid, false⟩ := by
  have hdec : decryptMessage deps j = none := by
    rcases hpw with h | h <;> simp [decryptMessage, h]
  have hstep := loadStep_decryptFailed deps file s j hread hparse hcrypto
    hdec
  simp [load, hloc, loadAux, loadStepUpdate, hstep]

/-- Parsed JSON of the C10 witness: an object with a top-level `crypto`
key (and otherwise arbitrary content). -/
def c10Json : Json := .obj [("crypto", .obj []), ("version", .num 4)]

/-- Concrete loader environment for the C10 witness: no password is
configured, yet the envelope validator and decryptor would both succeed —
demonstrating that they are never consulted. -/
def c10Deps : LoadDeps :=
  ⟨["gs://bucket/enc.json"], none,
   fun _ => some "enc", fun _ => some "enc",
   fun s => if s = "enc" then some c10Json else none,
   fun j => some j, fun _ _ => some "plaintext"⟩

/-- C10, witness: the theorem applied to the concrete passwordless
environment: the encrypted-looking location is skipped with exactly one
invalid-message increment. -/
theorem load_crypto_key_requires_password_witness :
    load c10Deps Metrics.init =
      ⟨[], Metrics.init.incMessagesInvalid, false⟩ :=
  load_crypto_key_requires_password c10Deps "gs://bucket/enc.json" "enc"
    c10Json Metrics.init rfl (Or.inl rfl)
    (by simp [readFile, c10Deps]) rfl rfl

end ValidatorEjector
